import Mathlib

/-!
Verification development for the tutor_me textbook-RAG pipeline.

The definitions below are a shallow embedding of the repository's code:
`2_structure_data.py` (chunk segmentation and id assignment),
`3_create_embeddings.py` / `2_structure_data.py` (chunk-collection JSON documents), and
`4_rag_query.py` (retrieval and answer assembly).  External collaborators
(the vector index, the embedding model, the generation runtime) are passed
in as explicit function parameters.  Python regexes are embedded as
executable scanners that reproduce the backtracking behaviour of the
specific patterns used by the source.
-/

namespace TutorMe

/-! ## Character classes and decimal rendering helpers -/

/-- Python `\s` (and `str.strip`) whitespace, restricted to the ASCII
whitespace characters that occur in this repository's data. -/
def isPySpace (c : Char) : Bool :=
  c = ' ' || c = '\t' || c = '\n' || c = '\r' || c = '\x0b' || c = '\x0c'

/-- Decimal digit character for a value below ten. -/
def digitChar (d : Nat) : Char := Char.ofNat (48 + d)

/-- Fuel-driven decimal rendering of a natural number (most significant
digit first), mirroring Python's rendering of a nonnegative `int` in an
f-string. -/
def natToDecAux : Nat → Nat → List Char
  | 0, _ => []
  | fuel + 1, n =>
    if n < 10 then [digitChar n]
    else natToDecAux fuel (n / 10) ++ [digitChar (n % 10)]

/-- Decimal rendering of a natural number as a string. -/
def natToDec (n : Nat) : String := String.mk (natToDecAux (n + 1) n)

/-- Decimal rendering of an integer, mirroring Python's `str` on `int`. -/
def intToDec (i : Int) : String :=
  if i < 0 then "-" ++ natToDec i.natAbs else natToDec i.toNat

/-- Numeric value of a list of decimal digit characters, mirroring
Python's `int` on a digit string. -/
def valOfDigits (l : List Char) : Nat :=
  l.foldl (fun a c => 10 * a + (c.toNat - 48)) 0

/-- Python `str.strip()`: drop whitespace from both ends. -/
def pyStrip (s : String) : String :=
  String.mk (((s.data.dropWhile isPySpace).reverse.dropWhile isPySpace).reverse)

/-- Whether the second list starts with the first. -/
def listStartsWith : List Char → List Char → Bool
  | [], _ => true
  | _ :: _, [] => false
  | p :: ps, c :: cs => p = c && listStartsWith ps cs

/-- Splitting on a (nonempty) separator, leftmost non-overlapping
occurrences first, as Python's `str.split(sep)` does. -/
def splitOnAuxL (sep : List Char) : Nat → List Char → List Char → List (List Char)
  | 0, acc, _ => [acc.reverse]
  | _ + 1, acc, [] => [acc.reverse]
  | fuel + 1, acc, c :: cs =>
    if listStartsWith sep (c :: cs) then
      acc.reverse :: splitOnAuxL sep fuel [] ((c :: cs).drop sep.length)
    else
      splitOnAuxL sep fuel (c :: acc) cs

/-- Python `s.split(sep)` for a nonempty separator. -/
def pySplit (s sep : String) : List String :=
  (splitOnAuxL sep.data (s.data.length + 1) [] s.data).map String.mk

/-! ## The mathematics task pattern

Embeds `re.findall(r'(\d+)\.\s+(.*?)(?=\n\d+\.|$)', page_text, re.DOTALL)`
from `ChunkCreator.extract_math_tasks`.  The lazy body group stops at the
first position where the lookahead succeeds; with `re.DOTALL` and no
`re.MULTILINE`, `$` matches at the end of the text or just before a
trailing newline. -/

/-- The lookahead `(?=\n\d+\.|$)`: succeeds on the empty remainder, on a
single trailing newline, or on a newline followed by digits and a dot. -/
def taskLookahead (l : List Char) : Bool :=
  match l with
  | [] => true
  | ['\n'] => true
  | '\n' :: rest =>
    let ds := rest.takeWhile Char.isDigit
    (!ds.isEmpty) &&
      (match rest.drop ds.length with
       | '.' :: _ => true
       | _ => false)
  | _ => false

/-- Lazy body: the shortest prefix whose remainder satisfies the
lookahead.  Returns the body and the remainder. -/
def findBody : List Char → List Char × List Char
  | [] => ([], [])
  | c :: cs =>
    if taskLookahead (c :: cs) then ([], c :: cs)
    else
      let p := findBody cs
      (c :: p.1, p.2)

/-- Attempt to match the task pattern at the current position: a maximal
digit run, a literal dot, at least one whitespace character (greedy), then
the lazy body.  Returns the digit characters, the body, and the remainder
after the match. -/
def tryTask (l : List Char) : Option (List Char × List Char × List Char) :=
  let ds := l.takeWhile Char.isDigit
  if ds.isEmpty then none
  else
    match l.drop ds.length with
    | '.' :: r2 =>
      let ws := r2.takeWhile isPySpace
      if ws.isEmpty then none
      else
        let p := findBody (r2.drop ws.length)
        some (ds, p.1, p.2)
    | _ => none

/-- The `re.findall` scan: try to match at each position, continuing after
a match or advancing one character after a failure. -/
def scanTasksAux : Nat → List Char → List (List Char × List Char)
  | 0, _ => []
  | _, [] => []
  | fuel + 1, c :: cs =>
    match tryTask (c :: cs) with
    | some (ds, body, rest) => (ds, body) :: scanTasksAux fuel rest
    | none => scanTasksAux fuel cs

/-- All task-pattern matches in a page text, as (digits, body) pairs. -/
def scanTasks (s : String) : List (List Char × List Char) :=
  scanTasksAux (s.data.length + 1) s.data

/-! ## The formula pattern

Embeds `re.findall(r'[a-zа-я0-9\s\+\-\*\/\(\)]+\s*=\s*[a-zа-я0-9\s\+\-\*\/\(\)]+', text, re.IGNORECASE)`
from `ChunkCreator._extract_formulas`.  With `re.IGNORECASE` the character
class also matches the uppercase variants of its letter ranges. -/

/-- The formula character class (case-insensitive letters, digits,
whitespace, arithmetic operators, parentheses). -/
def isFormChar (c : Char) : Bool :=
  ('a' ≤ c && c ≤ 'z') || ('A' ≤ c && c ≤ 'Z') || c.isDigit || isPySpace c ||
  c = '+' || c = '-' || c = '*' || c = '/' || c = '(' || c = ')' ||
  ('а' ≤ c && c ≤ 'я') || ('А' ≤ c && c ≤ 'Я')

/-- Attempt to match a formula at the current position: a maximal class
run, an equals sign, and a second nonempty maximal class run (the interior
`\s*` runs are absorbed by the class, which contains all whitespace). -/
def tryFormula (l : List Char) : Option (List Char × List Char) :=
  let r1 := l.takeWhile isFormChar
  if r1.isEmpty then none
  else
    match l.drop r1.length with
    | '=' :: r =>
      let r2 := r.takeWhile isFormChar
      if r2.isEmpty then none
      else some (r1 ++ '=' :: r2, r.drop r2.length)
    | _ => none

/-- The `re.findall` scan for the formula pattern. -/
def scanFormAux : Nat → List Char → List (List Char)
  | 0, _ => []
  | _, [] => []
  | fuel + 1, c :: cs =>
    match tryFormula (c :: cs) with
    | some (m, rest) => m :: scanFormAux fuel rest
    | none => scanFormAux fuel cs

/-- Embeds `ChunkCreator._extract_formulas`: all formula matches, each
stripped. -/
def extract_formulas (s : String) : List String :=
  (scanFormAux (s.data.length + 1) s.data).map (fun m => pyStrip (String.mk m))

/-! ## The date and name patterns (history variant)

Embed `re.findall(r'\b\d{1,4}\s*г\.?|\b\d{1,4}[-–]\d{1,4}\s*гг\.?', para)`
and `re.findall(r'\b[А-ЯЁ][а-яё]+\s+[А-ЯЁ][а-яё]+', para)` from
`ChunkCreator.extract_history_content`.  The word boundary `\b` before a
word character requires the previous character to be a non-word character
(or the start of the text); the scanners track the word-ness of the
previous character while advancing. -/

/-- Uppercase Cyrillic letters of the class `[А-ЯЁ]`. -/
def isCyrUpper (c : Char) : Bool := ('А' ≤ c && c ≤ 'Я') || c = 'Ё'

/-- Lowercase Cyrillic letters of the class `[а-яё]`. -/
def isCyrLower (c : Char) : Bool := ('а' ≤ c && c ≤ 'я') || c = 'ё'

/-- Python `\w` word characters, restricted to the alphabets occurring in
this repository's data (ASCII alphanumerics, underscore, Cyrillic). -/
def isWordCh (c : Char) : Bool :=
  c.isAlphanum || c = '_' || isCyrUpper c || isCyrLower c

/-- First date alternative `\b\d{1,4}\s*г\.?` at the current position
(the caller has already checked the word boundary): a maximal digit run of
length one to four, optional whitespace, the letter `г`, an optional dot. -/
def tryDateA (l : List Char) : Option (List Char × List Char) :=
  let ds := l.takeWhile Char.isDigit
  if ds.isEmpty || decide (4 < ds.length) then none
  else
    let r1 := l.drop ds.length
    let sp := r1.takeWhile isPySpace
    match r1.drop sp.length with
    | 'г' :: '.' :: rest => some (ds ++ sp ++ ['г', '.'], rest)
    | 'г' :: rest => some (ds ++ sp ++ ['г'], rest)
    | _ => none

/-- Second date alternative `\b\d{1,4}[-–]\d{1,4}\s*гг\.?`. -/
def tryDateB (l : List Char) : Option (List Char × List Char) :=
  let d1 := l.takeWhile Char.isDigit
  if d1.isEmpty || decide (4 < d1.length) then none
  else
    match l.drop d1.length with
    | c :: r1 =>
      if c = '-' || c = '–' then
        let d2 := r1.takeWhile Char.isDigit
        if d2.isEmpty || decide (4 < d2.length) then none
        else
          let r2 := r1.drop d2.length
          let sp := r2.takeWhile isPySpace
          match r2.drop sp.length with
          | 'г' :: 'г' :: '.' :: rest => some (d1 ++ c :: d2 ++ sp ++ ['г', 'г', '.'], rest)
          | 'г' :: 'г' :: rest => some (d1 ++ c :: d2 ++ sp ++ ['г', 'г'], rest)
          | _ => none
      else none
    | [] => none

/-- Word-ness of the last character of a (nonempty) match, used to carry
the boundary state past a match. -/
def lastWord (m : List Char) : Bool := (m.getLast?.map isWordCh).getD false

/-- The `re.findall` scan for the date pattern; `prevWord` records whether
the character just before the current position is a word character. -/
def scanDatesAux : Nat → Bool → List Char → List (List Char)
  | 0, _, _ => []
  | _, _, [] => []
  | fuel + 1, prevWord, c :: cs =>
    if prevWord then scanDatesAux fuel (isWordCh c) cs
    else
      match tryDateA (c :: cs) with
      | some (m, rest) => m :: scanDatesAux fuel (lastWord m) rest
      | none =>
        match tryDateB (c :: cs) with
        | some (m, rest) => m :: scanDatesAux fuel (lastWord m) rest
        | none => scanDatesAux fuel (isWordCh c) cs

/-- All date matches in a paragraph. -/
def findDates (s : String) : List String :=
  (scanDatesAux (s.data.length + 1) false s.data).map (fun m => String.mk m)

/-- The name pattern `[А-ЯЁ][а-яё]+\s+[А-ЯЁ][а-яё]+` at the current
position (word boundary checked by the caller). -/
def tryNameMatch (l : List Char) : Option (List Char × List Char) :=
  match l with
  | c1 :: r1 =>
    if isCyrUpper c1 then
      let lo1 := r1.takeWhile isCyrLower
      if lo1.isEmpty then none
      else
        let r2 := r1.drop lo1.length
        let sp := r2.takeWhile isPySpace
        if sp.isEmpty then none
        else
          match r2.drop sp.length with
          | c2 :: r3 =>
            if isCyrUpper c2 then
              let lo2 := r3.takeWhile isCyrLower
              if lo2.isEmpty then none
              else some (c1 :: lo1 ++ sp ++ c2 :: lo2, r3.drop lo2.length)
            else none
          | [] => none
    else none
  | [] => none

/-- The `re.findall` scan for the name pattern. -/
def scanNamesAux : Nat → Bool → List Char → List (List Char)
  | 0, _, _ => []
  | _, _, [] => []
  | fuel + 1, prevWord, c :: cs =>
    if prevWord then scanNamesAux fuel (isWordCh c) cs
    else
      match tryNameMatch (c :: cs) with
      | some (m, rest) => m :: scanNamesAux fuel (lastWord m) rest
      | none => scanNamesAux fuel (isWordCh c) cs

/-- All name matches in a paragraph. -/
def findNames (s : String) : List String :=
  (scanNamesAux (s.data.length + 1) false s.data).map (fun m => String.mk m)

/-! ## Data model

Mirrors `config.TextbookMetadata` (a pydantic model) and the chunk
dictionaries built by `2_structure_data.py`.  Keys that a given variant
does not put into its dictionary are modelled as `none`; the four
book-level keys that `structure_textbook` adds in one `update` call are
grouped into `BookInfo`. -/

structure TextbookMetadata where
  title : String
  author : String
  year : Int
  grade : Int
  subject : String
  isbn : Option String
  part : Option Int
deriving DecidableEq, Repr

structure BookInfo where
  textbook_title : String
  grade : Int
  subject : String
  author : String
deriving DecidableEq, Repr

structure ChunkMetadata where
  page : Nat
  content_type : String
  task_number : Option Nat
  dates : Option (List String)
  historical_figures : Option (List String)
  chapter : Option Nat
  book : Option BookInfo
deriving DecidableEq, Repr

structure ChunkContent where
  text : String
  formulas : Option (List String)
deriving DecidableEq, Repr

structure Chunk where
  chunk_id : String
  metadata : ChunkMetadata
  content : ChunkContent
deriving DecidableEq, Repr

/-- Placeholder chunk used as the default of `List.getD`. -/
def dummyChunk : Chunk :=
  { chunk_id := "",
    metadata := { page := 0, content_type := "", task_number := none,
                  dates := none, historical_figures := none,
                  chapter := none, book := none },
    content := { text := "", formulas := none } }

/-! ## The segmenter -/

/-- Embeds `ChunkCreator.extract_math_tasks`: one chunk per task-pattern
match, with the temporary id, the parsed task number, the stripped body,
and the extracted formulas. -/
def extract_math_tasks (page_text : String) (page_num : Nat) : List Chunk :=
  (scanTasks page_text).map fun p =>
    { chunk_id := ("math_temp_") ++ natToDec page_num ++ "_" ++ String.mk p.1,
      metadata := { page := page_num, content_type := "task",
                    task_number := some (valOfDigits p.1),
                    dates := none, historical_figures := none,
                    chapter := none, book := none },
      content := { text := pyStrip (String.mk p.2),
                   formulas := some (extract_formulas (String.mk p.2)) } }

/-- Paragraph list of `extract_history_content`: split the page text on
blank lines, strip each paragraph, and drop the empty ones
(`[p.strip() for p in page_text.split('\n\n') if p.strip()]`). -/
def historyParagraphs (page_text : String) : List String :=
  ((pySplit page_text ("\n\n")).map pyStrip).filter (fun p => p ≠ "")

/-- Embeds `ChunkCreator.extract_history_content`: one chunk per surviving
paragraph, with extracted dates and de-duplicated names.  CPython's
`list(set(names))` has an unspecified order; the embedding keeps the first
occurrence of each name, and the theorems below only use membership. -/
def extract_history_content (page_text : String) (page_num : Nat) : List Chunk :=
  (historyParagraphs page_text).enum.map fun p =>
    { chunk_id := ("history_temp_") ++ natToDec page_num ++ "_" ++ natToDec p.1,
      metadata := { page := page_num, content_type := "text",
                    task_number := none,
                    dates := some (findDates p.2),
                    historical_figures := some ((findNames p.2).eraseDups),
                    chapter := none, book := none },
      content := { text := p.2, formulas := none } }

/-! ## Final id assignment and `structure_textbook` -/

/-- Embeds `ChunkCreator.create_chunk_id`'s f-string
`f"{self.subject}_{metadata['grade']}_ch{metadata.get('chapter', 0)}_p{metadata['page']}_{self.chunk_id_counter}"`. -/
def mkChunkId (subject : String) (grade : Int) (chapter : Nat) (page : Nat)
    (counter : Nat) : String :=
  subject ++ "_" ++ intToDec grade ++ "_ch" ++ natToDec chapter ++ "_p" ++
    natToDec page ++ "_" ++ natToDec counter

/-- One step of the second pass of `structure_textbook`: inject the
book-level metadata (`chunk['metadata'].update(...)`) and assign the final
id with the given counter value. -/
def finalizeChunk (tb : TextbookMetadata) (n : Nat) (ch : Chunk) : Chunk :=
  let md := { ch.metadata with
              book := some { textbook_title := tb.title, grade := tb.grade,
                             subject := tb.subject, author := tb.author } }
  { chunk_id := mkChunkId tb.subject tb.grade (md.chapter.getD 0) md.page n,
    metadata := md,
    content := ch.content }

/-- The second pass over one page's chunks: the per-run counter is
incremented once per chunk, in order.  Returns the final counter and the
finalized chunks. -/
def assignIds (tb : TextbookMetadata) : Nat → List Chunk → Nat × List Chunk
  | c0, [] => (c0, [])
  | c0, ch :: rest =>
    let r := assignIds tb (c0 + 1) rest
    (r.1, finalizeChunk tb (c0 + 1) ch :: r.2)

/-- Per-subject dispatch of `structure_textbook`: mathematics and history
pages go through their extractors; any other subject is skipped
(`continue`), contributing no chunks. -/
def pageChunks (tb : TextbookMetadata) (pg : Nat × String) : List Chunk :=
  if tb.subject = "математика" then extract_math_tasks pg.2 pg.1
  else if tb.subject = "история" then extract_history_content pg.2 pg.1
  else []

/-- Processing of one page file inside `structure_textbook`'s loop:
extract, finalize with the running counter, and append to the collected
chunks. -/
def processPage (tb : TextbookMetadata) (st : Nat × List Chunk)
    (pg : Nat × String) : Nat × List Chunk :=
  let r := assignIds tb st.1 (pageChunks tb pg)
  (r.1, st.2 ++ r.2)

/-- Embeds `structure_textbook`'s chunk production over the sorted page
files, each given as a (page number, page text) pair. -/
def structure_textbook_chunks (tb : TextbookMetadata)
    (pages : List (Nat × String)) : List Chunk :=
  (pages.foldl (processPage tb) (0, [])).2

/-- The chunk-collection document that `structure_textbook` writes:
`{'metadata': ..., 'chunks': ..., 'total_chunks': len(all_chunks)}`. -/
structure ChunkCollectionDoc where
  metadata : TextbookMetadata
  chunks : List Chunk
  total_chunks : Nat
deriving DecidableEq, Repr

/-- The document written at the end of `structure_textbook`. -/
def structure_textbook_doc (tb : TextbookMetadata)
    (pages : List (Nat × String)) : ChunkCollectionDoc :=
  let cs := structure_textbook_chunks tb pages
  { metadata := tb, chunks := cs, total_chunks := cs.length }

/-! ## The RAG system (`4_rag_query.py`)

The vector index is modelled as a partial map from collection names to
collections; a collection's `query` method is an opaque function from the
query embedding and `n_results` to the raw result lists.  The embedding
model and the generation runtime are likewise opaque function parameters;
a generation fault is an `Except.error`.  Distances are modelled as
rational numbers. -/

/-- Metadata of a chunk as returned by the vector index
(`results['metadatas']`); the answer assembler only reads
`textbook_title` and `page`, with defaults when absent. -/
structure RetrievedMeta where
  textbook_title : Option String
  page : Option Nat
deriving DecidableEq, Repr

/-- The raw result of `collection.query` (first row of each field). -/
structure QueryResults where
  ids : List String
  documents : List String
  metadatas : List RetrievedMeta
  distances : List ℚ
deriving DecidableEq, Repr

/-- A collection of the vector index. -/
structure Collection where
  query : List ℚ → Nat → QueryResults

/-- One formatted retrieval result, as built by
`search_relevant_chunks`. -/
structure RetrievedChunk where
  id : String
  document : String
  metadata : RetrievedMeta
  distance : ℚ
deriving DecidableEq, Repr

/-- Placeholder used as the default of `List.getD` on retrieved chunks. -/
def dummyRetrieved : RetrievedChunk :=
  { id := "", document := "", metadata := { textbook_title := none, page := none },
    distance := 0 }

/-- The error raised by `search_relevant_chunks` when the collection is
missing (`raise ValueError(...)`). -/
inductive RagError where
  | valueError (msg : String)
deriving DecidableEq, Repr

/-- The deterministic collection name
`f"{Config.CHROMA_COLLECTION_PREFIX}_{subject}_{grade}"` with the prefix
constant `"textbook"` from `config.py`. -/
def collectionName (subject : String) (grade : Int) : String :=
  ("textbook_") ++ subject ++ "_" ++ intToDec grade

/-- Formatting loop of `search_relevant_chunks`: one `RetrievedChunk` per
returned id, pairing the four result lists by index.  The index is assumed
to return equal-length lists (Python would raise `IndexError`
otherwise); `getD` stands for the direct indexing. -/
def formatChunks (r : QueryResults) : List RetrievedChunk :=
  (List.range r.ids.length).map fun i =>
    { id := r.ids.getD i "", document := r.documents.getD i "",
      metadata := r.metadatas.getD i { textbook_title := none, page := none },
      distance := r.distances.getD i 0 }

/-- Embeds `RAGSystem.search_relevant_chunks`: resolve the collection name,
fail with the `ValueError` if the collection is missing, otherwise embed
the query and format the nearest-neighbour results. -/
def search_relevant_chunks (client : String → Option Collection)
    (encode : String → List ℚ) (query subject : String) (grade : Int)
    (n_results : Nat) : Except RagError (List RetrievedChunk) :=
  let name := collectionName subject grade
  match client name with
  | none =>
    .error (.valueError (("Коллекция \x27") ++ name ++
      ("\x27 не найдена. Запустите 3_create_embeddings.py")))
  | some col =>
    let query_embedding := encode query
    .ok (formatChunks (col.query query_embedding n_results))

/-- Page rendering inside the prompt and the sources: the stored page
number, or the `"?"` placeholder when the metadata has no page. -/
def pageToStr (p : Option Nat) : String :=
  match p with
  | some n => natToDec n
  | none => "?"

/-- Embeds `RAGSystem.create_prompt`: numbered source blocks joined by
newlines inside the fixed instructional frame. -/
def create_prompt (query : String) (chunks : List RetrievedChunk)
    (grade : Int) (subject : String) : String :=
  let context_parts := (chunks.enumFrom 1).map fun p =>
    ("[Источник ") ++ natToDec p.1 ++ "]\n" ++
    "Учебник: " ++ (p.2.metadata.textbook_title.getD ("Неизвестно")) ++ "\n" ++
    "Страница: " ++ pageToStr p.2.metadata.page ++ "\n" ++
    "Содержание:\n" ++ p.2.document ++ "\n"
  let context := String.intercalate ("\n") context_parts
  ("Ты — репетитор для школьника ") ++ intToDec grade ++
  (" класса по предмету \"") ++ subject ++ ("\".\n\n") ++
  ("КОНТЕКСТ ИЗ УЧЕБНИКА:\n") ++ context ++ ("\n\n") ++
  ("ВОПРОС УЧЕНИКА:\n") ++ query ++ ("\n\n") ++
  ("ПРАВИЛА ОТВЕТА:\n") ++
  ("1. Используй ТОЛЬКО информацию из предоставленного контекста\n") ++
  ("2. Объясняй на уровне ") ++ intToDec grade ++ (" класса\n") ++
  ("3. Приводи примеры из учебника, если есть\n") ++
  ("4. Если в контексте нет ответа, честно скажи об этом\n") ++
  ("5. Укажи источник (страницу учебника)\n") ++
  ("6. Объясняй пошагово\n\n") ++
  ("ОТВЕТ:")

/-- One source citation of an `AnswerResult`. -/
structure SourceRef where
  textbook : String
  page : Option Nat
  relevance : ℚ
deriving DecidableEq, Repr

/-- Placeholder used as the default of `List.getD` on sources. -/
def dummySource : SourceRef := { textbook := "", page := none, relevance := 0 }

/-- Response metadata of an `AnswerResult`. -/
structure AnswerMeta where
  subject : String
  grade : Int
  model : String
  chunks_used : Nat
deriving DecidableEq, Repr

/-- The result dictionary returned by `answer_question`. -/
structure AnswerResult where
  query : String
  answer : String
  sources : List SourceRef
  metadata : AnswerMeta
deriving DecidableEq, Repr

/-- Embeds `RAGSystem.answer_question`: retrieve (faults from retrieval
propagate), build the prompt, invoke the generation runtime, replace a
generation fault by the placeholder answer, and package the sources with
`relevance = 1 - distance`. -/
def answer_question (client : String → Option Collection)
    (encode : String → List ℚ) (generate : String → Except String String)
    (ollama_model : String) (query subject : String) (grade : Int)
    (n_results : Nat) : Except RagError AnswerResult :=
  match search_relevant_chunks client encode query subject grade n_results with
  | .error e => .error e
  | .ok chunks =>
    let prompt := create_prompt query chunks grade subject
    let answer :=
      match generate prompt with
      | .ok resp => resp
      | .error e => ("Ошибка при генерации ответа: ") ++ e
    .ok { query := query, answer := answer,
          sources := chunks.map fun c =>
            { textbook := c.metadata.textbook_title.getD ("Неизвестно"),
              page := c.metadata.page,
              relevance := 1 - c.distance },
          metadata := { subject := subject, grade := grade,
                        model := ollama_model, chunks_used := chunks.length } }

/-! ## JSON documents (the chunk store)

`structure_textbook` writes `{'metadata': ..., 'chunks': ..., 'total_chunks': ...}`
with `json.dump`, and `process_chunks_file` reads `data['chunks']` and
`data['metadata']` back with `json.load`.  JSON values are modelled by the
`Json` inductive; dictionary indexing by `getField`.  Numbers occurring in
these documents are integers. -/

inductive Json where
  | null : Json
  | jint : Int → Json
  | jstr : String → Json
  | jarr : List Json → Json
  | jobj : List (String × Json) → Json

/-- Dictionary key access (`data[key]` / `dict.get`). -/
def getField : List (String × Json) → String → Option Json
  | [], _ => none
  | (a, v) :: rest, k => if a = k then some v else getField rest k

/-- Encoding of `BookInfo` as the four keys that
`chunk['metadata'].update(...)` adds. -/
def encodeBook (b : BookInfo) : List (String × Json) :=
  [(("textbook_title"), .jstr b.textbook_title), (("grade"), .jint b.grade),
   (("subject"), .jstr b.subject), (("author"), .jstr b.author)]

/-- Encoding of a chunk's metadata dictionary; keys a variant did not set
are absent, exactly as in the Python dictionaries. -/
def encodeMeta (m : ChunkMetadata) : Json :=
  .jobj
    ([(("page"), .jint m.page)] ++
     (match m.task_number with
      | some t => [(("task_number"), Json.jint t)]
      | none => []) ++
     [(("content_type"), .jstr m.content_type)] ++
     (match m.dates with
      | some ds => [(("dates"), Json.jarr (ds.map Json.jstr))]
      | none => []) ++
     (match m.historical_figures with
      | some hs => [(("historical_figures"), Json.jarr (hs.map Json.jstr))]
      | none => []) ++
     (match m.chapter with
      | some c => [(("chapter"), Json.jint c)]
      | none => []) ++
     (match m.book with
      | some b => encodeBook b
      | none => []))

/-- Encoding of a chunk's content dictionary. -/
def encodeContent (c : ChunkContent) : Json :=
  .jobj
    ([(("text"), .jstr c.text)] ++
     (match c.formulas with
      | some fs => [(("formulas"), Json.jarr (fs.map Json.jstr))]
      | none => []))

/-- Encoding of one chunk dictionary. -/
def encodeChunk (c : Chunk) : Json :=
  .jobj [(("chunk_id"), .jstr c.chunk_id), (("metadata"), encodeMeta c.metadata),
         (("content"), encodeContent c.content)]

/-- Encoding of `textbook_metadata.model_dump()`: every pydantic field is
present, with `None` serialized as JSON null. -/
def encodeTB (t : TextbookMetadata) : Json :=
  .jobj [(("title"), .jstr t.title), (("author"), .jstr t.author),
         (("year"), .jint t.year), (("grade"), .jint t.grade),
         (("subject"), .jstr t.subject),
         (("isbn"), match t.isbn with | some s => Json.jstr s | none => Json.null),
         (("part"), match t.part with | some p => Json.jint p | none => Json.null)]

/-- Encoding of the whole chunk-collection document written by
`structure_textbook`. -/
def encodeDoc (d : ChunkCollectionDoc) : Json :=
  .jobj [(("metadata"), encodeTB d.metadata),
         (("chunks"), .jarr (d.chunks.map encodeChunk)),
         (("total_chunks"), .jint d.total_chunks)]

/-- Reading a JSON string. -/
def asStr : Json → Option String
  | .jstr s => some s
  | _ => none

/-- Reading a JSON integer. -/
def asInt : Json → Option Int
  | .jint i => some i
  | _ => none

/-- Reading a nonnegative JSON integer. -/
def asNat (j : Json) : Option Nat :=
  (asInt j).bind fun i => if 0 ≤ i then some i.toNat else none

/-- Reading a list of JSON strings. -/
def decodeStrings : List Json → Option (List String)
  | [] => some []
  | j :: rest => do
    let s ← asStr j
    let ss ← decodeStrings rest
    pure (s :: ss)

/-- Reading a JSON array of strings. -/
def asStrList : Json → Option (List String)
  | .jarr xs => decodeStrings xs
  | _ => none

/-- Decoding of a chunk metadata dictionary. -/
def decodeMeta : Json → Option ChunkMetadata
  | .jobj fs => do
    let page ← (getField fs ("page")).bind asNat
    let ctype ← (getField fs ("content_type")).bind asStr
    let tno := (getField fs ("task_number")).bind asNat
    let dates := (getField fs ("dates")).bind asStrList
    let hf := (getField fs ("historical_figures")).bind asStrList
    let chap := (getField fs ("chapter")).bind asNat
    let book : Option BookInfo := do
      let t ← (getField fs ("textbook_title")).bind asStr
      let g ← (getField fs ("grade")).bind asInt
      let s ← (getField fs ("subject")).bind asStr
      let a ← (getField fs ("author")).bind asStr
      pure { textbook_title := t, grade := g, subject := s, author := a }
    pure { page := page, content_type := ctype, task_number := tno,
           dates := dates, historical_figures := hf, chapter := chap,
           book := book }
  | _ => none

/-- Decoding of a chunk content dictionary. -/
def decodeContent : Json → Option ChunkContent
  | .jobj fs => do
    let text ← (getField fs ("text")).bind asStr
    let formulas := (getField fs ("formulas")).bind asStrList
    pure { text := text, formulas := formulas }
  | _ => none

/-- Decoding of one chunk dictionary. -/
def decodeChunk : Json → Option Chunk
  | .jobj fs => do
    let cid ← (getField fs ("chunk_id")).bind asStr
    let md ← (getField fs ("metadata")).bind decodeMeta
    let ct ← (getField fs ("content")).bind decodeContent
    pure { chunk_id := cid, metadata := md, content := ct }
  | _ => none

/-- Decoding of the pydantic textbook metadata. -/
def decodeTB : Json → Option TextbookMetadata
  | .jobj fs => do
    let title ← (getField fs ("title")).bind asStr
    let author ← (getField fs ("author")).bind asStr
    let year ← (getField fs ("year")).bind asInt
    let grade ← (getField fs ("grade")).bind asInt
    let subject ← (getField fs ("subject")).bind asStr
    let isbn ←
      match getField fs ("isbn") with
      | some Json.null => some none
      | some (Json.jstr s) => some (some s)
      | _ => none
    let part ←
      match getField fs ("part") with
      | some Json.null => some none
      | some (Json.jint p) => some (some p)
      | _ => none
    pure { title := title, author := author, year := year, grade := grade,
           subject := subject, isbn := isbn, part := part }
  | _ => none

/-- Reading a list of chunk dictionaries. -/
def decodeChunkList : List Json → Option (List Chunk)
  | [] => some []
  | j :: rest => do
    let c ← decodeChunk j
    let cs ← decodeChunkList rest
    pure (c :: cs)

/-- The `data['chunks']` read performed by `process_chunks_file`. -/
def readChunksFromDoc : Json → Option (List Chunk)
  | .jobj fs =>
    (getField fs ("chunks")).bind fun j =>
      match j with
      | .jarr xs => decodeChunkList xs
      | _ => none
  | _ => none

/-- The `data['metadata']` read performed by `process_chunks_file`. -/
def readMetadataFromDoc : Json → Option TextbookMetadata
  | .jobj fs => (getField fs ("metadata")).bind decodeTB
  | _ => none

/-! ## Result accessors, invariants, and concrete example data -/

/-- Whether a call returned normally. -/
def resultOk (r : Except RagError AnswerResult) : Bool :=
  match r with
  | .ok _ => true
  | .error _ => false

/-- The answer text of a normal result (empty for a raised error). -/
def resultAnswer (r : Except RagError AnswerResult) : String :=
  match r with
  | .ok a => a.answer
  | .error _ => ""

/-- The sources list of a normal result (empty for a raised error). -/
def resultSources (r : Except RagError AnswerResult) : List SourceRef :=
  match r with
  | .ok a => a.sources
  | .error _ => []

/-- Invariant of a chunk list: the chunk at (zero-based) position `k`
carries the final id composed from the textbook's subject and grade, its
own chapter (defaulting to zero) and page, and counter value `k + 1`. -/
def IdOk (tb : TextbookMetadata) (cs : List Chunk) : Prop :=
  ∀ k, k < cs.length →
    (cs.getD k dummyChunk).chunk_id =
      mkChunkId tb.subject tb.grade
        (((cs.getD k dummyChunk).metadata.chapter).getD 0)
        ((cs.getD k dummyChunk).metadata.page) (k + 1)

/-- The mathematics page text of the spec's example, written on one line
exactly as in the spec. -/
def exFlatText : String := "1. Найдите сумму 2+2. 2. Найдите разность 5-3."

/-- The same two tasks separated by a newline, the form the source's
pattern actually splits. -/
def exNlText : String := "1. Найдите сумму 2+2.\n2. Найдите разность 5-3."

/-- The history page text of the spec's example. -/
def exHistText : String := "В 1242 г. произошло событие.\n\nИван Грозный правил долго."

/-- A mathematics textbook (the one from the source's `__main__`). -/
def tbMathEx : TextbookMetadata :=
  { title := "Математика. 5 класс. Рабочая тетрадь. Часть 1",
    author := "Ткачёва М.В.", year := 2023, grade := 5,
    subject := "математика", isbn := none, part := some 1 }

/-- A history textbook. -/
def tbHistEx : TextbookMetadata :=
  { title := "История России. 6 класс", author := "Арсентьев Н.М.",
    year := 2022, grade := 6, subject := "история", isbn := none,
    part := none }

/-- A textbook with an unsupported subject. -/
def tbOtherEx : TextbookMetadata :=
  { title := "Физика. 7 класс", author := "Пёрышкин А.В.", year := 2021,
    grade := 7, subject := "физика", isbn := none, part := none }

/-- A concrete one-document collection used to exercise the read path. -/
def exCollection : Collection :=
  { query := fun _ _ =>
      { ids := ["математика_5_ch0_p3_1"], documents := ["Содержание: пример"],
        metadatas := [{ textbook_title := some ("Математика. 5 класс"), page := some 3 }],
        distances := [0] } }

/-- A client whose every collection lookup succeeds. -/
def exClient : String → Option Collection := fun _ => some exCollection

/-- A trivial embedding function. -/
def exEncode : String → List ℚ := fun _ => []

/-- The chunks the example client retrieves for any query. -/
def exChunks : List RetrievedChunk := formatChunks (exCollection.query [] 3)

/-! ## Lemmas about decimal rendering and chunk ids -/

lemma toNat_digitChar {d : Nat} (h : d < 10) : (digitChar d).toNat = 48 + d := by
  interval_cases d <;> decide

lemma digitChar_ne_underscore {d : Nat} (h : d < 10) : digitChar d ≠ '_' := by
  interval_cases d <;> decide

lemma valOfDigits_append_singleton (l : List Char) (c : Char) :
    valOfDigits (l ++ [c]) = 10 * valOfDigits l + (c.toNat - 48) := by
  simp [valOfDigits, List.foldl_append]

lemma valOf_natToDecAux : ∀ fuel n, n < fuel →
    valOfDigits (natToDecAux fuel n) = n := by
  intro fuel
  induction fuel with
  | zero => intro n h; omega
  | succ fuel ih =>
    intro n h
    by_cases hn : n < 10
    · simp [natToDecAux, hn, valOfDigits, toNat_digitChar hn]
    · have hdiv : n / 10 < fuel := by
        have h1 : n / 10 < n := Nat.div_lt_self (by omega) (by omega)
        omega
      have hmod : n % 10 < 10 := Nat.mod_lt _ (by omega)
      simp only [natToDecAux, if_neg hn]
      rw [valOfDigits_append_singleton, ih _ hdiv, toNat_digitChar hmod]
      omega

lemma underscore_not_mem_natToDecAux : ∀ fuel n, '_' ∉ natToDecAux fuel n := by
  intro fuel
  induction fuel with
  | zero => intro n h; simp [natToDecAux] at h
  | succ fuel ih =>
    intro n h
    by_cases hn : n < 10
    · simp [natToDecAux, hn] at h
      exact digitChar_ne_underscore hn h.symm
    · simp only [natToDecAux, if_neg hn, List.mem_append, List.mem_singleton] at h
      rcases h with h | h
      · exact ih _ h
      · exact digitChar_ne_underscore (Nat.mod_lt _ (by omega)) h.symm

lemma underscore_not_mem_natToDec (n : Nat) : '_' ∉ (natToDec n).data :=
  underscore_not_mem_natToDecAux (n + 1) n

lemma natToDec_data_inj {m n : Nat} (h : (natToDec m).data = (natToDec n).data) :
    m = n := by
  have hm := valOf_natToDecAux (m + 1) m (by omega)
  have hn := valOf_natToDecAux (n + 1) n (by omega)
  have : valOfDigits (natToDec m).data = valOfDigits (natToDec n).data := by rw [h]
  simpa [natToDec, hm, hn] using this

lemma takeWhile_until_underscore :
    ∀ (l r : List Char), '_' ∉ l →
      (l ++ '_' :: r).takeWhile (fun c => c != '_') = l := by
  intro l
  induction l with
  | nil => intro r _; simp [List.takeWhile]
  | cons c cs ih =>
    intro r h
    have hc : c ≠ '_' := fun hc => h (hc ▸ List.mem_cons_self c cs)
    simp only [List.cons_append, List.takeWhile_cons]
    rw [if_pos (by simpa using hc)]
    rw [ih r (fun hm => h (List.mem_cons_of_mem _ hm))]

lemma underscore_tail_inj {x y a b : List Char} (ha : '_' ∉ a) (hb : '_' ∉ b)
    (h : x ++ '_' :: a = y ++ '_' :: b) : a = b := by
  have h' := congrArg List.reverse h
  simp only [List.reverse_append, List.reverse_cons, List.append_assoc,
    List.singleton_append] at h'
  have ha' : '_' ∉ a.reverse := by simpa using ha
  have hb' : '_' ∉ b.reverse := by simpa using hb
  have ht := congrArg (List.takeWhile (fun c => c != '_')) h'
  rw [takeWhile_until_underscore _ _ ha', takeWhile_until_underscore _ _ hb'] at ht
  have := congrArg List.reverse ht
  simpa using this

lemma append_natToDec_inj {x y : String} {c c' : Nat}
    (h : x ++ "_" ++ natToDec c = y ++ "_" ++ natToDec c') : c = c' := by
  have hd := congrArg String.data h
  simp only [String.data_append] at hd
  rw [List.append_assoc, List.append_assoc, List.singleton_append,
    List.singleton_append] at hd
  exact natToDec_data_inj
    (underscore_tail_inj (underscore_not_mem_natToDec c)
      (underscore_not_mem_natToDec c') hd)

lemma mkChunkId_counter_inj {s s' : String} {g g' : Int} {ch ch' p p' c c' : Nat}
    (h : mkChunkId s g ch p c = mkChunkId s' g' ch' p' c') : c = c' := by
  unfold mkChunkId at h
  exact append_natToDec_inj h

/-! ## Lemmas about the second pass and the page fold -/

lemma assignIds_fst (tb : TextbookMetadata) :
    ∀ (l : List Chunk) (c0 : Nat), (assignIds tb c0 l).1 = c0 + l.length := by
  intro l
  induction l with
  | nil => intro c0; simp [assignIds]
  | cons ch rest ih =>
    intro c0
    simp only [assignIds, List.length_cons]
    rw [ih (c0 + 1)]
    omega

lemma assignIds_snd_length (tb : TextbookMetadata) :
    ∀ (l : List Chunk) (c0 : Nat), (assignIds tb c0 l).2.length = l.length := by
  intro l
  induction l with
  | nil => intro c0; simp [assignIds]
  | cons ch rest ih =>
    intro c0
    simp only [assignIds, List.length_cons]
    rw [ih (c0 + 1)]

lemma assignIds_getD (tb : TextbookMetadata) :
    ∀ (l : List Chunk) (c0 k : Nat), k < l.length →
      (assignIds tb c0 l).2.getD k dummyChunk =
        finalizeChunk tb (c0 + k + 1) (l.getD k dummyChunk) := by
  intro l
  induction l with
  | nil => intro c0 k h; simp at h
  | cons ch rest ih =>
    intro c0 k h
    cases k with
    | zero => simp [assignIds]
    | succ k =>
      simp only [assignIds, List.getD_cons_succ]
      rw [ih (c0 + 1) k (by simpa using Nat.lt_of_succ_lt_succ h)]
      congr 1
      omega

lemma assignIds_content_mem (tb : TextbookMetadata) :
    ∀ (l : List Chunk) (c0 : Nat) (c' : Chunk),
      c' ∈ (assignIds tb c0 l).2 → ∃ ch ∈ l, c'.content = ch.content := by
  intro l
  induction l with
  | nil => intro c0 c' h; simp [assignIds] at h
  | cons ch rest ih =>
    intro c0 c' h
    simp only [assignIds, List.mem_cons] at h
    rcases h with h | h
    · exact ⟨ch, List.mem_cons_self ch rest, by simp [h, finalizeChunk]⟩
    · obtain ⟨ch2, hm, hc⟩ := ih (c0 + 1) c' h
      exact ⟨ch2, List.mem_cons_of_mem _ hm, hc⟩

lemma finalize_chunk_id (tb : TextbookMetadata) (n : Nat) (ch : Chunk) :
    (finalizeChunk tb n ch).chunk_id =
      mkChunkId tb.subject tb.grade
        (((finalizeChunk tb n ch).metadata.chapter).getD 0)
        ((finalizeChunk tb n ch).metadata.page) n := by
  simp [finalizeChunk]

lemma processPage_invariant (tb : TextbookMetadata) (st : Nat × List Chunk)
    (pg : Nat × String) (h1 : st.1 = st.2.length) (h2 : IdOk tb st.2) :
    (processPage tb st pg).1 = (processPage tb st pg).2.length ∧
      IdOk tb (processPage tb st pg).2 := by
  constructor
  · simp [processPage, assignIds_fst, assignIds_snd_length, h1]
  · intro k hk
    simp only [processPage, List.length_append,
      assignIds_snd_length] at hk
    by_cases hlt : k < st.2.length
    · simp only [processPage]
      rw [List.getD_append _ _ _ _ hlt]
      exact h2 k hlt
    · have hge : st.2.length ≤ k := Nat.le_of_not_lt hlt
      have hk2 : k - st.2.length < (pageChunks tb pg).length := by omega
      simp only [processPage]
      rw [List.getD_append_right _ _ _ _ hge,
        assignIds_getD tb _ _ _ (by simpa [assignIds_snd_length] using hk2)]
      rw [finalize_chunk_id]
      congr 1
      omega

lemma foldl_invariant (tb : TextbookMetadata) :
    ∀ (pages : List (Nat × String)) (st : Nat × List Chunk),
      st.1 = st.2.length → IdOk tb st.2 →
      (pages.foldl (processPage tb) st).1 =
          (pages.foldl (processPage tb) st).2.length ∧
        IdOk tb (pages.foldl (processPage tb) st).2 := by
  intro pages
  induction pages with
  | nil => intro st h1 h2; exact ⟨h1, h2⟩
  | cons pg rest ih =>
    intro st h1 h2
    have hstep := processPage_invariant tb st pg h1 h2
    simpa [List.foldl_cons] using ih _ hstep.1 hstep.2

lemma structure_id_spec (tb : TextbookMetadata) (pages : List (Nat × String)) :
    IdOk tb (structure_textbook_chunks tb pages) := by
  have h := foldl_invariant tb pages (0, []) rfl (by intro k hk; simp at hk)
  exact h.2

/-! ## Lemmas about the history variant and subject dispatch -/

lemma snd_mem_of_mem_enumFrom {α : Type} :
    ∀ (l : List α) (n : Nat) (x : Nat × α), x ∈ l.enumFrom n → x.2 ∈ l := by
  intro l
  induction l with
  | nil => intro n x h; simp at h
  | cons a as ih =>
    intro n x h
    rcases List.mem_cons.mp h with h | h
    · rw [h]; exact List.mem_cons_self a as
    · exact List.mem_cons_of_mem _ (ih (n + 1) x h)

lemma snd_mem_of_mem_enum {α : Type} (l : List α) (x : Nat × α)
    (h : x ∈ l.enum) : x.2 ∈ l :=
  snd_mem_of_mem_enumFrom l 0 x h

lemma mem_historyParagraphs_ne {t p : String} (h : p ∈ historyParagraphs t) :
    p ≠ "" := by
  simp only [historyParagraphs, List.mem_filter, decide_eq_true_eq] at h
  exact h.2

lemma extract_history_text_ne {t : String} {pn : Nat} {c : Chunk}
    (h : c ∈ extract_history_content t pn) : c.content.text ≠ "" := by
  simp only [extract_history_content, List.mem_map] at h
  obtain ⟨p, hp, hc⟩ := h
  have hmem : p.2 ∈ historyParagraphs t := snd_mem_of_mem_enum _ p hp
  have : c.content.text = p.2 := by rw [← hc]
  rw [this]
  exact mem_historyParagraphs_ne hmem

lemma pageChunks_history {tb : TextbookMetadata} (hs : tb.subject = "история")
    (pg : Nat × String) : pageChunks tb pg = extract_history_content pg.2 pg.1 := by
  have hne : tb.subject ≠ "математика" := by rw [hs]; decide
  simp [pageChunks, hne, hs]

lemma foldl_history_text_ne (tb : TextbookMetadata) (hs : tb.subject = "история") :
    ∀ (pages : List (Nat × String)) (st : Nat × List Chunk),
      (∀ c ∈ st.2, c.content.text ≠ "") →
      ∀ c ∈ (pages.foldl (processPage tb) st).2, c.content.text ≠ "" := by
  intro pages
  induction pages with
  | nil => intro st h; exact h
  | cons pg rest ih =>
    intro st h
    refine ih (processPage tb st pg) ?_
    intro c hc
    simp only [processPage, List.mem_append] at hc
    rcases hc with hc | hc
    · exact h c hc
    · obtain ⟨ch, hm, hcontent⟩ := assignIds_content_mem tb _ _ c hc
      rw [pageChunks_history hs] at hm
      have := extract_history_text_ne hm
      rw [hcontent]
      exact this

/-! ## Lemmas about skipped subjects -/

lemma processPage_other {tb : TextbookMetadata}
    (h1 : tb.subject ≠ "математика") (h2 : tb.subject ≠ "история")
    (st : Nat × List Chunk) (pg : Nat × String) : processPage tb st pg = st := by
  simp [processPage, pageChunks, h1, h2, assignIds]

lemma foldl_other {tb : TextbookMetadata}
    (h1 : tb.subject ≠ "математика") (h2 : tb.subject ≠ "история") :
    ∀ (pages : List (Nat × String)) (st : Nat × List Chunk),
      pages.foldl (processPage tb) st = st := by
  intro pages
  induction pages with
  | nil => intro st; rfl
  | cons pg rest ih =>
    intro st
    rw [List.foldl_cons, processPage_other h1 h2, ih]

/-! ## Round-trip lemmas for the chunk-collection document -/

lemma asStrList_roundtrip (l : List String) :
    asStrList (.jarr (l.map Json.jstr)) = some l := by
  induction l with
  | nil => rfl
  | cons s rest ih =>
    simp only [asStrList] at ih ⊢
    simp [decodeStrings, asStr, ih]

lemma decodeMeta_roundtrip (m : ChunkMetadata) :
    decodeMeta (encodeMeta m) = some m := by
  obtain ⟨page, ctype, tno, dates, hf, chap, book⟩ := m
  cases tno <;> cases dates <;> cases hf <;> cases chap <;>
    rcases book with _ | ⟨bt, bg, bs, ba⟩ <;>
    simp [encodeMeta, decodeMeta, encodeBook, getField, asNat, asInt, asStr,
      asStrList_roundtrip, Option.bind]

lemma decodeContent_roundtrip (c : ChunkContent) :
    decodeContent (encodeContent c) = some c := by
  obtain ⟨text, formulas⟩ := c
  cases formulas <;>
    simp [encodeContent, decodeContent, getField, asStr, asStrList_roundtrip,
      Option.bind]

lemma decodeChunk_roundtrip (c : Chunk) :
    decodeChunk (encodeChunk c) = some c := by
  obtain ⟨cid, md, ct⟩ := c
  simp [encodeChunk, decodeChunk, getField, asStr, decodeMeta_roundtrip,
    decodeContent_roundtrip, Option.bind]

lemma decodeChunkList_roundtrip (l : List Chunk) :
    decodeChunkList (l.map encodeChunk) = some l := by
  induction l with
  | nil => rfl
  | cons c rest ih =>
    simp [decodeChunkList, decodeChunk_roundtrip, ih]

lemma decodeTB_roundtrip (t : TextbookMetadata) :
    decodeTB (encodeTB t) = some t := by
  obtain ⟨title, author, year, grade, subject, isbn, part⟩ := t
  cases isbn <;> cases part <;>
    simp [encodeTB, decodeTB, getField, asStr, asInt, Option.bind]

/-! ## Claim theorems -/

/-- Claim C1, counterexample: on the spec's one-line example the task
pattern produces a single chunk whose body bleeds into the second task,
because the lookahead `(?=\n\d+\.|$)` requires a newline before the next
numbered item.  The claim's "exactly two chunks" is false on this input. -/
theorem c1_counterexample :
    extract_math_tasks exFlatText 1 =
      [{ chunk_id := "math_temp_1_1",
         metadata := { page := 1, content_type := "task", task_number := some 1,
                       dates := none, historical_figures := none,
                       chapter := none, book := none },
         content := { text := "Найдите сумму 2+2. 2. Найдите разность 5-3.",
                      formulas := some [] } }] := by
  decide

/-- Claim C1, amended: the body of a task runs until a newline followed by
the next numbered item (or the end of the text); with the two tasks
separated by a newline, the segmenter produces exactly two chunks with
task numbers 1 and 2, in page order, each body its own with no bleed. -/
theorem c1_amended_newline_split :
    extract_math_tasks exNlText 1 =
      [{ chunk_id := "math_temp_1_1",
         metadata := { page := 1, content_type := "task", task_number := some 1,
                       dates := none, historical_figures := none,
                       chapter := none, book := none },
         content := { text := "Найдите сумму 2+2.", formulas := some [] } },
       { chunk_id := "math_temp_1_2",
         metadata := { page := 1, content_type := "task", task_number := some 2,
                       dates := none, historical_figures := none,
                       chapter := none, book := none },
         content := { text := "Найдите разность 5-3.", formulas := some [] } }] := by
  decide

/-- Claim C4, counterexample: a mathematics page consisting of a numbered
item with an empty body (`"1. "`) is stored as a chunk whose
`content.text` is the empty string, refuting "content.text is never empty
for a stored chunk". -/
theorem c4_counterexample :
    (structure_textbook_chunks tbMathEx [(1, ("1. "))]).map
        (fun c => c.content.text) = [""] := by
  decide

/-- Claim C4, amended: for the history variant the extraction pattern does
drop empty segments: every chunk stored by a history segmentation run has
non-empty `content.text`.  (A mathematics chunk may have empty text when a
numbered item has an empty body.) -/
theorem c4_amended_history_nonempty (tb : TextbookMetadata)
    (pages : List (Nat × String)) (c : Chunk) (hs : tb.subject = "история")
    (hc : c ∈ structure_textbook_chunks tb pages) : c.content.text ≠ "" :=
  foldl_history_text_ne tb hs pages (0, [])
    (by intro c' h; simp at h) c hc

/-- Witness for the amended C4 theorem at a concrete history run. -/
theorem c4_amended_witness :
    ((structure_textbook_chunks tbHistEx [(1, ("Первый текст."))]).getD 0
        dummyChunk).content.text ≠ "" :=
  c4_amended_history_nonempty tbHistEx [(1, ("Первый текст."))] _ rfl (by decide)

/-- Claim C5: within one segmentation run the final `chunk_id` values are
pairwise distinct (the id ends with the per-run counter, which strictly
increases). -/
theorem c5_chunk_ids_distinct (tb : TextbookMetadata)
    (pages : List (Nat × String)) (i j : Nat)
    (hi : i < (structure_textbook_chunks tb pages).length)
    (hj : j < (structure_textbook_chunks tb pages).length) (hij : i ≠ j) :
    ((structure_textbook_chunks tb pages).getD i dummyChunk).chunk_id ≠
      ((structure_textbook_chunks tb pages).getD j dummyChunk).chunk_id := by
  intro h
  have hspec := structure_id_spec tb pages
  rw [hspec i hi, hspec j hj] at h
  have := mkChunkId_counter_inj h
  omega

/-- Witness for C5 at a concrete two-task run. -/
theorem c5_witness :
    ((structure_textbook_chunks tbMathEx [(1, ("1. а\n2. б"))]).getD 0
        dummyChunk).chunk_id ≠
      ((structure_textbook_chunks tbMathEx [(1, ("1. а\n2. б"))]).getD 1
        dummyChunk).chunk_id :=
  c5_chunk_ids_distinct tbMathEx [(1, ("1. а\n2. б"))] 0 1 (by decide)
    (by decide) (by decide)

/-- Claim C6: the history segmenter yields exactly one chunk per non-empty
blank-line-delimited paragraph, in order (whitespace-only paragraphs are
dropped), and on the spec's example it yields two chunks, the first with
`dates = ["1242 г."]` and the second with `historical_figures` containing
`"Иван Грозный"`. -/
theorem c6_history_segmentation :
    (∀ (t : String) (pn : Nat),
        (extract_history_content t pn).length = (historyParagraphs t).length) ∧
    (∀ (t : String) (pn k : Nat), k < (historyParagraphs t).length →
        ((extract_history_content t pn).getD k dummyChunk).content.text =
          (historyParagraphs t).getD k "") ∧
    extract_history_content exHistText 1 =
      [{ chunk_id := "history_temp_1_0",
         metadata := { page := 1, content_type := "text", task_number := none,
                       dates := some ["1242 г."],
                       historical_figures := some [],
                       chapter := none, book := none },
         content := { text := "В 1242 г. произошло событие.",
                      formulas := none } },
       { chunk_id := "history_temp_1_1",
         metadata := { page := 1, content_type := "text", task_number := none,
                       dates := some [],
                       historical_figures := some ["Иван Грозный"],
                       chapter := none, book := none },
         content := { text := "Иван Грозный правил долго.",
                      formulas := none } }] := by
  refine ⟨?_, ?_, by decide⟩
  · intro t pn
    simp [extract_history_content]
  · intro t pn k hk
    have hk2 : k < (extract_history_content t pn).length := by
      simpa [extract_history_content] using hk
    rw [List.getD_eq_getElem _ _ hk2, List.getD_eq_getElem _ _ hk]
    simp [extract_history_content]

/-- Witness for C6 at the example's first paragraph. -/
theorem c6_witness :
    ((extract_history_content exHistText 1).getD 0 dummyChunk).content.text =
      (historyParagraphs exHistText).getD 0 "" :=
  c6_history_segmentation.2.1 exHistText 1 0 (by decide)

/-- Claim C7: the final id of the chunk at position `k` of a run composes
the run's subject and grade, the chunk's chapter (defaulting to 0 when
absent) and page, and the sequential counter value `k + 1` — the counter
increments by one per chunk in processing order. -/
theorem c7_sequential_counter (tb : TextbookMetadata)
    (pages : List (Nat × String)) (k : Nat)
    (hk : k < (structure_textbook_chunks tb pages).length) :
    ((structure_textbook_chunks tb pages).getD k dummyChunk).chunk_id =
      mkChunkId tb.subject tb.grade
        ((((structure_textbook_chunks tb pages).getD k
            dummyChunk).metadata.chapter).getD 0)
        (((structure_textbook_chunks tb pages).getD k
            dummyChunk).metadata.page) (k + 1) :=
  structure_id_spec tb pages k hk

/-- Witness for C7 at a concrete one-task run. -/
theorem c7_witness :
    ((structure_textbook_chunks tbMathEx [(2, ("7. задача"))]).getD 0
        dummyChunk).chunk_id =
      mkChunkId tbMathEx.subject tbMathEx.grade
        ((((structure_textbook_chunks tbMathEx [(2, ("7. задача"))]).getD 0
            dummyChunk).metadata.chapter).getD 0)
        (((structure_textbook_chunks tbMathEx [(2, ("7. задача"))]).getD 0
            dummyChunk).metadata.page) 1 :=
  c7_sequential_counter tbMathEx [(2, ("7. задача"))] 0 (by decide)

/-- Claim C10: a run over a textbook whose subject is neither mathematics
nor history skips every page without error and writes a document with an
empty chunk list and `total_chunks = 0`. -/
theorem c10_other_subject (tb : TextbookMetadata)
    (pages : List (Nat × String)) (h1 : tb.subject ≠ "математика")
    (h2 : tb.subject ≠ "история") :
    structure_textbook_doc tb pages =
      { metadata := tb, chunks := [], total_chunks := 0 } := by
  have hch : structure_textbook_chunks tb pages = [] := by
    unfold structure_textbook_chunks
    rw [foldl_other h1 h2]
  simp [structure_textbook_doc, hch]

/-- Witness for C10 at a concrete unsupported-subject run. -/
theorem c10_witness :
    structure_textbook_doc tbOtherEx [(1, ("1. Задача\n\nАбзац текста."))] =
      { metadata := tbOtherEx, chunks := [], total_chunks := 0 } :=
  c10_other_subject tbOtherEx [(1, ("1. Задача\n\nАбзац текста."))]
    (by decide) (by decide)

/-- Claim C2: when retrieval succeeds and the generation runtime raises
any fault, `answer_question` does not propagate it: the call still returns
a normal result whose answer is the non-empty placeholder embedding the
failure detail, and whose sources list has one entry per retrieved
chunk. -/
theorem c2_degraded_generation (client : String → Option Collection)
    (encode : String → List ℚ) (generate : String → Except String String)
    (m query subject : String) (grade : Int) (n : Nat)
    (chunks : List RetrievedChunk) (e : String)
    (hs : search_relevant_chunks client encode query subject grade n = .ok chunks)
    (hg : generate (create_prompt query chunks grade subject) = .error e) :
    resultOk (answer_question client encode generate m query subject grade n) = true ∧
    resultAnswer (answer_question client encode generate m query subject grade n) =
      ("Ошибка при генерации ответа: ") ++ e ∧
    resultAnswer (answer_question client encode generate m query subject grade n) ≠ "" ∧
    (resultSources (answer_question client encode generate m query subject grade n)).length =
      chunks.length := by
  have hres : answer_question client encode generate m query subject grade n =
      .ok { query := query,
            answer := ("Ошибка при генерации ответа: ") ++ e,
            sources := chunks.map fun c =>
              { textbook := c.metadata.textbook_title.getD ("Неизвестно"),
                page := c.metadata.page,
                relevance := 1 - c.distance },
            metadata := { subject := subject, grade := grade, model := m,
                          chunks_used := chunks.length } } := by
    simp [answer_question, hs, hg]
  refine ⟨by rw [hres]; rfl, by rw [hres]; rfl, ?_,
    by rw [hres]; simp [resultSources]⟩
  rw [hres]
  simp only [resultAnswer]
  intro h0
  have hl := congrArg String.length h0
  rw [String.length_append] at hl
  have hpos : 0 < ("Ошибка при генерации ответа: " : String).length := by decide
  simp only [String.length_empty] at hl
  omega

/-- Witness for C2 at a concrete failing generation runtime. -/
theorem c2_witness :
    resultOk (answer_question exClient exEncode (fun _ => .error ("сбой"))
        ("qwen3:8b") ("вопрос") ("математика") 5 3) = true ∧
    resultAnswer (answer_question exClient exEncode (fun _ => .error ("сбой"))
        ("qwen3:8b") ("вопрос") ("математика") 5 3) =
      ("Ошибка при генерации ответа: ") ++ ("сбой") ∧
    resultAnswer (answer_question exClient exEncode (fun _ => .error ("сбой"))
        ("qwen3:8b") ("вопрос") ("математика") 5 3) ≠ "" ∧
    (resultSources (answer_question exClient exEncode (fun _ => .error ("сбой"))
        ("qwen3:8b") ("вопрос") ("математика") 5 3)).length = exChunks.length :=
  c2_degraded_generation exClient exEncode (fun _ => .error ("сбой"))
    ("qwen3:8b") ("вопрос") ("математика") 5 3 exChunks ("сбой") rfl rfl

/-- Claim C3: when no collection exists for the (subject, grade) pair,
`search_relevant_chunks` raises a distinguishable `ValueError` that names
the missing collection and tells the caller to run the indexing stage;
the precondition failure is never silently swallowed. -/
theorem c3_missing_collection (client : String → Option Collection)
    (encode : String → List ℚ) (query subject : String) (grade : Int)
    (n : Nat) (h : client (collectionName subject grade) = none) :
    search_relevant_chunks client encode query subject grade n =
      .error (.valueError (("Коллекция \x27") ++ collectionName subject grade ++
        ("\x27 не найдена. Запустите 3_create_embeddings.py"))) := by
  simp [search_relevant_chunks, h]

/-- Witness for C3 at a concrete empty index. -/
theorem c3_witness :
    search_relevant_chunks (fun _ => none) exEncode ("вопрос") ("история") 6 3 =
      .error (.valueError (("Коллекция \x27") ++ collectionName ("история") 6 ++
        ("\x27 не найдена. Запустите 3_create_embeddings.py"))) :=
  c3_missing_collection (fun _ => none) exEncode ("вопрос") ("история") 6 3 rfl

/-- Claim C8: on a successful call, the sources list of the result mirrors
the retrieved chunks one-to-one and in the same order, each source
annotated with `relevance = 1 - distance` of the corresponding chunk. -/
theorem c8_sources_mirror (client : String → Option Collection)
    (encode : String → List ℚ) (generate : String → Except String String)
    (m query subject : String) (grade : Int) (n : Nat)
    (chunks : List RetrievedChunk) (t : String)
    (hs : search_relevant_chunks client encode query subject grade n = .ok chunks)
    (hg : generate (create_prompt query chunks grade subject) = .ok t) :
    resultOk (answer_question client encode generate m query subject grade n) = true ∧
    (resultSources (answer_question client encode generate m query subject grade n)).length =
      chunks.length ∧
    ∀ k, k < chunks.length →
      (resultSources (answer_question client encode generate m query subject grade n)).getD
          k dummySource =
        { textbook := ((chunks.getD k dummyRetrieved).metadata.textbook_title).getD
            ("Неизвестно"),
          page := (chunks.getD k dummyRetrieved).metadata.page,
          relevance := 1 - (chunks.getD k dummyRetrieved).distance } := by
  have hres : answer_question client encode generate m query subject grade n =
      .ok { query := query, answer := t,
            sources := chunks.map fun c =>
              { textbook := c.metadata.textbook_title.getD ("Неизвестно"),
                page := c.metadata.page,
                relevance := 1 - c.distance },
            metadata := { subject := subject, grade := grade, model := m,
                          chunks_used := chunks.length } } := by
    simp [answer_question, hs, hg]
  refine ⟨by rw [hres]; rfl, by rw [hres]; simp [resultSources], ?_⟩
  intro k hk
  rw [hres]
  show (chunks.map _).getD k dummySource = _
  rw [List.getD_eq_getElem _ _ (by simpa using hk), List.getElem_map,
    List.getD_eq_getElem _ _ hk]

/-- Witness for C8 at a concrete successful call. -/
theorem c8_witness :
    resultOk (answer_question exClient exEncode (fun _ => .ok ("ответ"))
        ("qwen3:8b") ("вопрос") ("математика") 5 3) = true ∧
    (resultSources (answer_question exClient exEncode (fun _ => .ok ("ответ"))
        ("qwen3:8b") ("вопрос") ("математика") 5 3)).length = exChunks.length ∧
    ∀ k, k < exChunks.length →
      (resultSources (answer_question exClient exEncode (fun _ => .ok ("ответ"))
          ("qwen3:8b") ("вопрос") ("математика") 5 3)).getD k dummySource =
        { textbook := ((exChunks.getD k dummyRetrieved).metadata.textbook_title).getD
            ("Неизвестно"),
          page := (exChunks.getD k dummyRetrieved).metadata.page,
          relevance := 1 - (exChunks.getD k dummyRetrieved).distance } :=
  c8_sources_mirror exClient exEncode (fun _ => .ok ("ответ")) ("qwen3:8b")
    ("вопрос") ("математика") 5 3 exChunks ("ответ") rfl rfl

/-- Claim C9: writing a chunk collection to its JSON document form and
reading it back (as `process_chunks_file` does) reproduces the same
chunks — ids, metadata, content — and the same textbook metadata:
serialization is lossless for all defined fields. -/
theorem c9_roundtrip (d : ChunkCollectionDoc) :
    readChunksFromDoc (encodeDoc d) = some d.chunks ∧
    readMetadataFromDoc (encodeDoc d) = some d.metadata := by
  constructor
  · simp [encodeDoc, readChunksFromDoc, getField, decodeChunkList_roundtrip]
  · simp [encodeDoc, readMetadataFromDoc, getField, decodeTB_roundtrip]

end TutorMe
